import Mathlib

/-!
Shallow embedding of the vote / reputation / notification / acceptance
pipeline of the HackSquad Q&A backend.

Sources embedded:
- `server/models/Question.js` : instance methods `upvote`, `downvote`,
  `removeVote`, `acceptAnswer` on the question schema.
- `server/models/Answer.js` : instance methods `upvote`, `downvote`,
  `removeVote`, `markAsAccepted`, and the post-save hook that updates the
  parent question.
- `server/routes/questions.js` : `POST /:id/vote` and
  `POST /:id/accept-answer` handlers.
- `server/routes/answers.js` (`users.js` in the tree) : `POST /:id/vote`
  and `POST /:id/accept` handlers.
- `server/models/Notification.js` : `createQuestionVoted`,
  `createAnswerVoted`, `createAnswerAccepted`.

Account ids are modelled as `Nat`.  Mongoose array `pull` removes every
occurrence of the element; `includes` is list membership; `push` appends.
Each persistence call (`User.findByIdAndUpdate` on reputation,
`this.save()` on the votable, `notification.save()`) is recorded as an
event so that issue order can be stated.
-/

namespace HackSquad

abbrev UserId := Nat

/-- Mongoose `array.pull(x)`: remove every occurrence of `x`. -/
def pull (u : UserId) (xs : List UserId) : List UserId :=
  xs.filter (fun x => x ≠ u)

/-- The vote ledger and derived score carried by a votable
(`votes`, `upvotes`, `downvotes`, `author` fields of the Question and
Answer schemas). -/
structure Ledger where
  author : UserId
  votes : Int
  upvotes : List UserId
  downvotes : List UserId
deriving DecidableEq, Repr

/-- A freshly created votable: ledger fields start empty / zero. -/
def Ledger.init (author : UserId) : Ledger :=
  { author := author, votes := 0, upvotes := [], downvotes := [] }

/-- One persistence call issued by the pipeline, in issue order:
a `User.findByIdAndUpdate` reputation increment, the votable document
`save`, or a notification document `save`. -/
inductive PersistEvent where
  | repWrite (author : UserId) (delta : Int)
  | saveTarget
  | notifSave
deriving DecidableEq, Repr

def PersistEvent.isRepWrite : PersistEvent → Bool
  | .repWrite _ _ => true
  | _ => false

def PersistEvent.isSaveTarget : PersistEvent → Bool
  | .saveTarget => true
  | _ => false

/-- Result of one model-level vote method: the updated document state,
the reputation increment sent to the author (0 when no
`findByIdAndUpdate` was issued), and the persistence calls in issue
order. -/
structure VoteResult where
  target : Ledger
  repDelta : Int
  events : List PersistEvent
deriving DecidableEq, Repr

namespace Question

/-- `questionSchema.methods.upvote` (Question.js): pull the voter from
`downvotes`; if not already an upvoter, push and `$inc` the author's
reputation by 5; recompute `votes`; save. -/
def upvote (userId : UserId) (q : Ledger) : VoteResult :=
  let downvotes := pull userId q.downvotes
  if q.upvotes.contains userId then
    { target := { q with
        downvotes := downvotes,
        votes := (q.upvotes.length : Int) - downvotes.length },
      repDelta := 0,
      events := [PersistEvent.saveTarget] }
  else
    let upvotes := q.upvotes ++ [userId]
    { target := { q with
        upvotes := upvotes,
        downvotes := downvotes,
        votes := (upvotes.length : Int) - downvotes.length },
      repDelta := 5,
      events := [PersistEvent.repWrite q.author 5, PersistEvent.saveTarget] }

/-- `questionSchema.methods.downvote` (Question.js): pull the voter from
`upvotes`; if not already a downvoter, push and `$inc` the author's
reputation by -2; recompute `votes`; save. -/
def downvote (userId : UserId) (q : Ledger) : VoteResult :=
  let upvotes := pull userId q.upvotes
  if q.downvotes.contains userId then
    { target := { q with
        upvotes := upvotes,
        votes := (upvotes.length : Int) - q.downvotes.length },
      repDelta := 0,
      events := [PersistEvent.saveTarget] }
  else
    let downvotes := q.downvotes ++ [userId]
    { target := { q with
        upvotes := upvotes,
        downvotes := downvotes,
        votes := (upvotes.length : Int) - downvotes.length },
      repDelta := -2,
      events := [PersistEvent.repWrite q.author (-2), PersistEvent.saveTarget] }

/-- `questionSchema.methods.removeVote` (Question.js): record prior
membership, pull the voter from both arrays, `$inc` the author's
reputation by `hadUpvote ? -5 : 2` when a vote existed, recompute
`votes`, save. -/
def removeVote (userId : UserId) (q : Ledger) : VoteResult :=
  let hadUpvote := q.upvotes.contains userId
  let hadDownvote := q.downvotes.contains userId
  let upvotes := pull userId q.upvotes
  let downvotes := pull userId q.downvotes
  let target : Ledger :=
    { q with
      upvotes := upvotes,
      downvotes := downvotes,
      votes := (upvotes.length : Int) - downvotes.length }
  if hadUpvote || hadDownvote then
    let change : Int := if hadUpvote then -5 else 2
    { target := target, repDelta := change,
      events := [PersistEvent.repWrite q.author change, PersistEvent.saveTarget] }
  else
    { target := target, repDelta := 0, events := [PersistEvent.saveTarget] }

end Question

namespace Answer

/-- `answerSchema.methods.upvote` (Answer.js): same shape as the
question method with a +10 reputation increment. -/
def upvote (userId : UserId) (a : Ledger) : VoteResult :=
  let downvotes := pull userId a.downvotes
  if a.upvotes.contains userId then
    { target := { a with
        downvotes := downvotes,
        votes := (a.upvotes.length : Int) - downvotes.length },
      repDelta := 0,
      events := [PersistEvent.saveTarget] }
  else
    let upvotes := a.upvotes ++ [userId]
    { target := { a with
        upvotes := upvotes,
        downvotes := downvotes,
        votes := (upvotes.length : Int) - downvotes.length },
      repDelta := 10,
      events := [PersistEvent.repWrite a.author 10, PersistEvent.saveTarget] }

/-- `answerSchema.methods.downvote` (Answer.js): -2 reputation increment
when the voter is newly added to `downvotes`. -/
def downvote (userId : UserId) (a : Ledger) : VoteResult :=
  let upvotes := pull userId a.upvotes
  if a.downvotes.contains userId then
    { target := { a with
        upvotes := upvotes,
        votes := (upvotes.length : Int) - a.downvotes.length },
      repDelta := 0,
      events := [PersistEvent.saveTarget] }
  else
    let downvotes := a.downvotes ++ [userId]
    { target := { a with
        upvotes := upvotes,
        downvotes := downvotes,
        votes := (upvotes.length : Int) - downvotes.length },
      repDelta := -2,
      events := [PersistEvent.repWrite a.author (-2), PersistEvent.saveTarget] }

/-- `answerSchema.methods.removeVote` (Answer.js): reputation increment
`hadUpvote ? -10 : 2` when a vote existed. -/
def removeVote (userId : UserId) (a : Ledger) : VoteResult :=
  let hadUpvote := a.upvotes.contains userId
  let hadDownvote := a.downvotes.contains userId
  let upvotes := pull userId a.upvotes
  let downvotes := pull userId a.downvotes
  let target : Ledger :=
    { a with
      upvotes := upvotes,
      downvotes := downvotes,
      votes := (upvotes.length : Int) - downvotes.length }
  if hadUpvote || hadDownvote then
    let change : Int := if hadUpvote then -10 else 2
    { target := target, repDelta := change,
      events := [PersistEvent.repWrite a.author change, PersistEvent.saveTarget] }
  else
    { target := target, repDelta := 0, events := [PersistEvent.saveTarget] }

end Answer

/-- The three vote actions accepted by the routes (`voteType` body
field). -/
inductive VoteType where
  | up
  | down
  | remove
deriving DecidableEq, Repr

/-- Dispatch of the question vote route's `switch (voteType)`. -/
def applyQuestionVote (vt : VoteType) (userId : UserId) (q : Ledger) : VoteResult :=
  match vt with
  | .up => Question.upvote userId q
  | .down => Question.downvote userId q
  | .remove => Question.removeVote userId q

/-- Dispatch of the answer vote route's `switch (voteType)`. -/
def applyAnswerVote (vt : VoteType) (userId : UserId) (a : Ledger) : VoteResult :=
  match vt with
  | .up => Answer.upvote userId a
  | .down => Answer.downvote userId a
  | .remove => Answer.removeVote userId a

/-- Run a sequence of question vote operations (each pair is the action
and the acting account). -/
def runQuestionVotes (ops : List (VoteType × UserId)) (q : Ledger) : Ledger :=
  ops.foldl (fun l p => (applyQuestionVote p.1 p.2 l).target) q

/-- Run a sequence of answer vote operations. -/
def runAnswerVotes (ops : List (VoteType × UserId)) (a : Ledger) : Ledger :=
  ops.foldl (fun l p => (applyAnswerVote p.1 p.2 l).target) a

/-- Ledger well-formedness: both membership arrays are duplicate-free,
no account is in both, and the stored score is the difference of the
set sizes. -/
def Ledger.wf (l : Ledger) : Prop :=
  l.upvotes.Nodup ∧ l.downvotes.Nodup ∧
  (∀ u, u ∈ l.upvotes → u ∉ l.downvotes) ∧
  l.votes = (l.upvotes.length : Int) - l.downvotes.length

theorem mem_pull {x u : UserId} {xs : List UserId} :
    x ∈ pull u xs ↔ x ∈ xs ∧ x ≠ u := by
  simp [pull]

theorem pull_nodup {u : UserId} {xs : List UserId} (h : xs.Nodup) :
    (pull u xs).Nodup :=
  h.filter _

theorem pull_idem (u : UserId) (xs : List UserId) :
    pull u (pull u xs) = pull u xs := by
  simp only [pull]
  rw [List.filter_eq_self]
  intro x hx
  exact (List.mem_filter.mp hx).2

theorem not_mem_pull (u : UserId) (xs : List UserId) : u ∉ pull u xs := by
  intro h
  exact (mem_pull.mp h).2 rfl

theorem pull_eq_of_not_mem {u : UserId} {xs : List UserId} (h : u ∉ xs) :
    pull u xs = xs := by
  simp only [pull]
  rw [List.filter_eq_self]
  intro x hx
  simp only [ne_eq, decide_eq_true_eq]
  intro he
  exact h (he ▸ hx)



theorem contains_eq_decide_mem (u : UserId) (xs : List UserId) :
    xs.contains u = decide (u ∈ xs) := by
  by_cases h : u ∈ xs <;> simp [h]

/-- The question and answer upvote methods perform the same ledger
transition (they differ only in the reputation increment). -/
theorem upvote_target_eq (u : UserId) (l : Ledger) :
    (Answer.upvote u l).target = (Question.upvote u l).target := by
  unfold Answer.upvote Question.upvote
  dsimp only
  split <;> rfl

theorem downvote_target_eq (u : UserId) (l : Ledger) :
    (Answer.downvote u l).target = (Question.downvote u l).target := by
  unfold Answer.downvote Question.downvote
  split <;> rfl

theorem removeVote_target_eq (u : UserId) (l : Ledger) :
    (Answer.removeVote u l).target = (Question.removeVote u l).target := by
  unfold Answer.removeVote Question.removeVote
  dsimp only
  split <;> rfl

theorem wf_init (author : UserId) : (Ledger.init author).wf := by
  refine ⟨List.nodup_nil, List.nodup_nil, ?_, rfl⟩
  intro u hu
  simp [Ledger.init] at hu

theorem wf_question_upvote {l : Ledger} (u : UserId) (h : l.wf) :
    (Question.upvote u l).target.wf := by
  obtain ⟨hnu, hnd, hdisj, _⟩ := h
  unfold Question.upvote
  dsimp only
  split
  · exact ⟨hnu, pull_nodup hnd, fun x hx hx2 => hdisj x hx (mem_pull.mp hx2).1, rfl⟩
  · next hc =>
    rw [contains_eq_decide_mem] at hc
    have hu : u ∉ l.upvotes := by simpa using hc
    refine ⟨?_, pull_nodup hnd, ?_, rfl⟩
    · simp [List.nodup_append, hnu, hu]
    · intro x hx hx2
      rcases List.mem_append.mp hx with hx1 | hx1
      · exact hdisj x hx1 (mem_pull.mp hx2).1
      · have : x = u := by simpa using hx1
        exact not_mem_pull u l.downvotes (this ▸ hx2)

theorem wf_question_downvote {l : Ledger} (u : UserId) (h : l.wf) :
    (Question.downvote u l).target.wf := by
  obtain ⟨hnu, hnd, hdisj, _⟩ := h
  unfold Question.downvote
  dsimp only
  split
  · exact ⟨pull_nodup hnu, hnd, fun x hx => hdisj x (mem_pull.mp hx).1, rfl⟩
  · next hc =>
    rw [contains_eq_decide_mem] at hc
    have hd : u ∉ l.downvotes := by simpa using hc
    refine ⟨pull_nodup hnu, ?_, ?_, rfl⟩
    · simp [List.nodup_append, hnd, hd]
    · intro x hx hx2
      obtain ⟨hx1, hxne⟩ := mem_pull.mp hx
      rcases List.mem_append.mp hx2 with hx3 | hx3
      · exact hdisj x hx1 hx3
      · exact hxne (by simpa using hx3)

theorem wf_question_removeVote {l : Ledger} (u : UserId) (h : l.wf) :
    (Question.removeVote u l).target.wf := by
  obtain ⟨hnu, hnd, hdisj, _⟩ := h
  have core : (⟨l.author, (pull u l.upvotes).length - (pull u l.downvotes).length,
      pull u l.upvotes, pull u l.downvotes⟩ : Ledger).wf := by
    refine ⟨pull_nodup hnu, pull_nodup hnd, ?_, rfl⟩
    intro x hx hx2
    exact hdisj x (mem_pull.mp hx).1 (mem_pull.mp hx2).1
  unfold Question.removeVote
  dsimp only
  split <;> exact core

theorem wf_applyQuestionVote {l : Ledger} (vt : VoteType) (u : UserId) (h : l.wf) :
    (applyQuestionVote vt u l).target.wf := by
  cases vt with
  | up => exact wf_question_upvote u h
  | down => exact wf_question_downvote u h
  | remove => exact wf_question_removeVote u h

theorem wf_applyAnswerVote {l : Ledger} (vt : VoteType) (u : UserId) (h : l.wf) :
    (applyAnswerVote vt u l).target.wf := by
  cases vt with
  | up => exact upvote_target_eq u l ▸ wf_question_upvote u h
  | down => exact downvote_target_eq u l ▸ wf_question_downvote u h
  | remove => exact removeVote_target_eq u l ▸ wf_question_removeVote u h

theorem runQuestionVotes_wf {l : Ledger} (ops : List (VoteType × UserId)) (h : l.wf) :
    (runQuestionVotes ops l).wf := by
  induction ops generalizing l with
  | nil => exact h
  | cons p ops ih => exact ih (wf_applyQuestionVote p.1 p.2 h)

theorem runAnswerVotes_wf {l : Ledger} (ops : List (VoteType × UserId)) (h : l.wf) :
    (runAnswerVotes ops l).wf := by
  induction ops generalizing l with
  | nil => exact h
  | cons p ops ih => exact ih (wf_applyAnswerVote p.1 p.2 h)

theorem question_upvote_mem (u : UserId) (l : Ledger) :
    u ∈ (Question.upvote u l).target.upvotes := by
  unfold Question.upvote
  dsimp only
  split
  · next hc =>
    rw [contains_eq_decide_mem] at hc
    simpa using hc
  · simp

theorem question_upvote_downvotes (u : UserId) (l : Ledger) :
    (Question.upvote u l).target.downvotes = pull u l.downvotes := by
  unfold Question.upvote
  split <;> rfl

theorem question_upvote_votes (u : UserId) (l : Ledger) :
    (Question.upvote u l).target.votes =
      ((Question.upvote u l).target.upvotes.length : Int) -
        (Question.upvote u l).target.downvotes.length := by
  unfold Question.upvote
  split <;> rfl

theorem question_upvote_noop {t : Ledger} (u : UserId) (hmem : u ∈ t.upvotes)
    (hd : pull u t.downvotes = t.downvotes)
    (hv : t.votes = (t.upvotes.length : Int) - t.downvotes.length) :
    (Question.upvote u t).target = t ∧ (Question.upvote u t).repDelta = 0 := by
  unfold Question.upvote
  rw [contains_eq_decide_mem]
  simp only [hmem, decide_True, if_true]
  refine ⟨?_, trivial⟩
  rw [hd, ← hv]

theorem answer_upvote_noop {t : Ledger} (u : UserId) (hmem : u ∈ t.upvotes)
    (hd : pull u t.downvotes = t.downvotes)
    (hv : t.votes = (t.upvotes.length : Int) - t.downvotes.length) :
    (Answer.upvote u t).target = t ∧ (Answer.upvote u t).repDelta = 0 := by
  unfold Answer.upvote
  rw [contains_eq_decide_mem]
  simp only [hmem, decide_True, if_true]
  refine ⟨?_, trivial⟩
  rw [hd, ← hv]

/-- Claim C1: for every votable (question or answer ledger) and every
sequence of vote operations by any actors, after each completed
operation the stored score equals the number of upvoters minus the
number of downvoters, and no account is in both the upvoters and the
downvoters set. -/
theorem claim1_score_and_disjointness (author : UserId)
    (ops : List (VoteType × UserId)) :
    ((runQuestionVotes ops (Ledger.init author)).votes =
        ((runQuestionVotes ops (Ledger.init author)).upvotes.length : Int) -
          (runQuestionVotes ops (Ledger.init author)).downvotes.length ∧
      ∀ u, ¬(u ∈ (runQuestionVotes ops (Ledger.init author)).upvotes ∧
        u ∈ (runQuestionVotes ops (Ledger.init author)).downvotes)) ∧
    ((runAnswerVotes ops (Ledger.init author)).votes =
        ((runAnswerVotes ops (Ledger.init author)).upvotes.length : Int) -
          (runAnswerVotes ops (Ledger.init author)).downvotes.length ∧
      ∀ u, ¬(u ∈ (runAnswerVotes ops (Ledger.init author)).upvotes ∧
        u ∈ (runAnswerVotes ops (Ledger.init author)).downvotes)) := by
  have hq := runQuestionVotes_wf ops (wf_init author)
  have ha := runAnswerVotes_wf ops (wf_init author)
  exact ⟨⟨hq.2.2.2, fun u hu => hq.2.2.1 u hu.1 hu.2⟩,
    ⟨ha.2.2.2, fun u hu => ha.2.2.1 u hu.1 hu.2⟩⟩

/-- Claim C2: the reputation increment issued to the votable's author by
each vote method is exactly the spec table, as a function of the
transition actually performed: fresh up gives +5 (question) / +10
(answer), fresh down gives -2, a no-op repeat gives 0 (so a
down-to-up switch gives only the up delta and an up-to-down switch
only -2), remove gives -5 or -10 after an upvote, +2 after a downvote, 0
with no prior vote. -/
theorem claim2_reputation_delta_table (l : Ledger) (u : UserId) :
    ((Question.upvote u l).repDelta = if u ∈ l.upvotes then 0 else 5) ∧
    ((Answer.upvote u l).repDelta = if u ∈ l.upvotes then 0 else 10) ∧
    ((Question.downvote u l).repDelta = if u ∈ l.downvotes then 0 else -2) ∧
    ((Answer.downvote u l).repDelta = if u ∈ l.downvotes then 0 else -2) ∧
    ((Question.removeVote u l).repDelta =
      if u ∈ l.upvotes then -5 else if u ∈ l.downvotes then 2 else 0) ∧
    ((Answer.removeVote u l).repDelta =
      if u ∈ l.upvotes then -10 else if u ∈ l.downvotes then 2 else 0) := by
  refine ⟨?_, ?_, ?_, ?_, ?_, ?_⟩
  · by_cases hm : u ∈ l.upvotes <;>
      simp [Question.upvote, contains_eq_decide_mem, hm]
  · by_cases hm : u ∈ l.upvotes <;>
      simp [Answer.upvote, contains_eq_decide_mem, hm]
  · by_cases hm : u ∈ l.downvotes <;>
      simp [Question.downvote, contains_eq_decide_mem, hm]
  · by_cases hm : u ∈ l.downvotes <;>
      simp [Answer.downvote, contains_eq_decide_mem, hm]
  · by_cases hu : u ∈ l.upvotes <;> by_cases hd : u ∈ l.downvotes <;>
      simp [Question.removeVote, contains_eq_decide_mem, hu, hd]
  · by_cases hu : u ∈ l.upvotes <;> by_cases hd : u ∈ l.downvotes <;>
      simp [Answer.removeVote, contains_eq_decide_mem, hu, hd]

/-- Claim C3: for an actor distinct from the author, upvoting twice in
a row is idempotent: the second call leaves the ledger and score
unchanged and issues a zero reputation increment, for questions and
for answers. -/
theorem claim3_double_upvote_idempotent (l : Ledger) (u : UserId)
    (_h : u ≠ l.author) :
    ((Question.upvote u (Question.upvote u l).target).target =
        (Question.upvote u l).target ∧
      (Question.upvote u (Question.upvote u l).target).repDelta = 0) ∧
    ((Answer.upvote u (Answer.upvote u l).target).target =
        (Answer.upvote u l).target ∧
      (Answer.upvote u (Answer.upvote u l).target).repDelta = 0) := by
  have hmem := question_upvote_mem u l
  have hdq := question_upvote_downvotes u l
  have hd : pull u (Question.upvote u l).target.downvotes =
      (Question.upvote u l).target.downvotes := by
    rw [hdq, pull_idem]
  have hv := question_upvote_votes u l
  have hq := question_upvote_noop u hmem hd hv
  have ha := answer_upvote_noop u hmem hd hv
  rw [upvote_target_eq u l]
  exact ⟨hq, ha⟩

theorem claim3_witness :
    (1 : UserId) ≠ (Ledger.init 0).author ∧
    (((Question.upvote 1 (Question.upvote 1 (Ledger.init 0)).target).target =
        (Question.upvote 1 (Ledger.init 0)).target ∧
      (Question.upvote 1 (Question.upvote 1 (Ledger.init 0)).target).repDelta = 0) ∧
    ((Answer.upvote 1 (Answer.upvote 1 (Ledger.init 0)).target).target =
        (Answer.upvote 1 (Ledger.init 0)).target ∧
      (Answer.upvote 1 (Answer.upvote 1 (Ledger.init 0)).target).repDelta = 0)) :=
  ⟨by decide, claim3_double_upvote_idempotent (Ledger.init 0) 1 (by decide)⟩

/-- The question document fields the pipelines touch
(`hasAcceptedAnswer`, `acceptedAnswer`, `answerCount`, `lastActivity`
of the question schema, besides `author` and the id). -/
structure QuestionDoc where
  id : Nat
  author : UserId
  hasAcceptedAnswer : Bool
  acceptedAnswer : Option Nat
  answerCount : Int
  lastActivity : Nat
deriving DecidableEq, Repr

/-- `answerSchema.post('save')` (Answer.js): every save of an answer
issues `Question.findByIdAndUpdate(doc.question, { $inc: { answerCount:
1 }, lastActivity: new Date() })` on the parent question. -/
def answerSaveHook (docQuestion : Nat) (now : Nat) (q : QuestionDoc) : QuestionDoc :=
  if q.id = docQuestion then
    { q with answerCount := q.answerCount + 1, lastActivity := now }
  else q

/-- A stored notification document, restricted to the fields the claims
mention: recipient, sender, the `type` string, and the `voteType`
metadata carried by vote notifications. -/
structure NotifRec where
  recipient : UserId
  sender : UserId
  ntype : String
  voteMeta : Option VoteType
deriving DecidableEq, Repr

/-- `Notification.createQuestionVoted` (Notification.js): one document
of type `question_voted` to the question author with the vote type as
metadata. -/
def createQuestionVoted (questionAuthor voter : UserId) (vt : VoteType) : NotifRec :=
  { recipient := questionAuthor, sender := voter,
    ntype := "question_voted", voteMeta := some vt }

/-- `Notification.createAnswerVoted` (Notification.js). -/
def createAnswerVoted (answerAuthor voter : UserId) (vt : VoteType) : NotifRec :=
  { recipient := answerAuthor, sender := voter,
    ntype := "answer_voted", voteMeta := some vt }

/-- `Notification.createAnswerAccepted` (Notification.js). -/
def createAnswerAccepted (answerAuthor questionAuthor : UserId) : NotifRec :=
  { recipient := answerAuthor, sender := questionAuthor,
    ntype := "answer_accepted", voteMeta := none }

/-- State visible to the question vote route: the question ledger, the
question author's reputation, and the stored notifications. -/
structure QuestionVoteWorld where
  target : Ledger
  authorRep : Int
  notifs : List NotifRec
deriving DecidableEq, Repr

/-- State visible to the answer vote route: additionally the parent
question document (updated by the answer post-save hook) and the
answer's `question` reference. -/
structure AnswerVoteWorld where
  target : Ledger
  questionRef : Nat
  parentQ : QuestionDoc
  authorRep : Int
  notifs : List NotifRec
deriving DecidableEq, Repr

/-- HTTP outcome of a vote route invocation: `res.json({votes})` on
success, a 4xx rejection, or the catch-all 500 handler. -/
inductive RouteOutcome where
  | success (votes : Int)
  | clientError (code : Nat)
  | serverError
deriving DecidableEq, Repr

structure QuestionRouteResult where
  outcome : RouteOutcome
  world : QuestionVoteWorld
  events : List PersistEvent
deriving DecidableEq, Repr

structure AnswerRouteResult where
  outcome : RouteOutcome
  world : AnswerVoteWorld
  events : List PersistEvent
deriving DecidableEq, Repr

/-- `POST /questions/:id/vote` (routes/questions.js), after the 404
lookup: reject self-votes with 400 before any mutation; otherwise
dispatch on `voteType`; then, for `voteType != remove`, await
`Notification.createQuestionVoted`; a failure of that save is caught by
the route's catch block and answered with 500, after the vote writes
have already been issued.  `notifFails` models whether the notification
save throws. -/
def questionVoteRoute (actor : UserId) (vt : VoteType)
    (w : QuestionVoteWorld) (notifFails : Bool) : QuestionRouteResult :=
  if w.target.author = actor then
    { outcome := RouteOutcome.clientError 400, world := w, events := [] }
  else
    let r := applyQuestionVote vt actor w.target
    let w1 : QuestionVoteWorld :=
      { target := r.target, authorRep := w.authorRep + r.repDelta,
        notifs := w.notifs }
    if vt = VoteType.remove then
      { outcome := RouteOutcome.success r.target.votes, world := w1,
        events := r.events }
    else if notifFails then
      { outcome := RouteOutcome.serverError, world := w1, events := r.events }
    else
      { outcome := RouteOutcome.success r.target.votes,
        world := { w1 with
          notifs := w1.notifs ++ [createQuestionVoted w.target.author actor vt] },
        events := r.events ++ [PersistEvent.notifSave] }

/-- `POST /answers/:id/vote` (routes/answers.js): same shape as the
question route; the answer save inside the model method fires the
post-save hook on the parent question. -/
def answerVoteRoute (actor : UserId) (vt : VoteType) (now : Nat)
    (w : AnswerVoteWorld) (notifFails : Bool) : AnswerRouteResult :=
  if w.target.author = actor then
    { outcome := RouteOutcome.clientError 400, world := w, events := [] }
  else
    let r := applyAnswerVote vt actor w.target
    let w1 : AnswerVoteWorld :=
      { target := r.target, questionRef := w.questionRef,
        parentQ := answerSaveHook w.questionRef now w.parentQ,
        authorRep := w.authorRep + r.repDelta, notifs := w.notifs }
    if vt = VoteType.remove then
      { outcome := RouteOutcome.success r.target.votes, world := w1,
        events := r.events }
    else if notifFails then
      { outcome := RouteOutcome.serverError, world := w1, events := r.events }
    else
      { outcome := RouteOutcome.success r.target.votes,
        world := { w1 with
          notifs := w1.notifs ++ [createAnswerVoted w.target.author actor vt] },
        events := r.events ++ [PersistEvent.notifSave] }

/-- Claim C4: a vote request by the target's own author fails with a
400 self-vote error before any mutation: ledger, score, reputation and
notifications are unchanged, for every action and for both routes. -/
theorem claim4_self_vote_rejected (actor : UserId) (vt : VoteType)
    (now : Nat) (nf nfa : Bool)
    (w : QuestionVoteWorld) (wa : AnswerVoteWorld)
    (hq : w.target.author = actor) (ha : wa.target.author = actor) :
    questionVoteRoute actor vt w nf =
      { outcome := RouteOutcome.clientError 400, world := w, events := [] } ∧
    answerVoteRoute actor vt now wa nfa =
      { outcome := RouteOutcome.clientError 400, world := wa, events := [] } := by
  constructor
  · simp [questionVoteRoute, hq]
  · simp [answerVoteRoute, ha]

/-- Sample worlds for concrete instantiations. -/
def sampleParentQ : QuestionDoc :=
  { id := 7, author := 0, hasAcceptedAnswer := false,
    acceptedAnswer := none, answerCount := 0, lastActivity := 0 }

def selfVoteQWorld : QuestionVoteWorld :=
  { target := { author := 0, votes := 0, upvotes := [], downvotes := [] },
    authorRep := 0, notifs := [] }

def selfVoteAWorld : AnswerVoteWorld :=
  { target := { author := 0, votes := 0, upvotes := [], downvotes := [] },
    questionRef := 7, parentQ := sampleParentQ,
    authorRep := 0, notifs := [] }

theorem claim4_witness :
    (selfVoteQWorld.target.author = 0 ∧ selfVoteAWorld.target.author = 0) ∧
    (questionVoteRoute 0 VoteType.up selfVoteQWorld false =
      { outcome := RouteOutcome.clientError 400, world := selfVoteQWorld,
        events := [] } ∧
    answerVoteRoute 0 VoteType.up 3 selfVoteAWorld false =
      { outcome := RouteOutcome.clientError 400, world := selfVoteAWorld,
        events := [] }) :=
  ⟨⟨rfl, rfl⟩,
    claim4_self_vote_rejected 0 VoteType.up 3 false false
      selfVoteQWorld selfVoteAWorld rfl rfl⟩

/-- A question world in which account 1 is already an upvoter: the `up`
action is a ledger no-op there. -/
def noopUpWorld : QuestionVoteWorld :=
  { target := { author := 0, votes := 1, upvotes := [1], downvotes := [] },
    authorRep := 5, notifs := [] }

/-- Claim C5 says a no-op repeat vote never emits a notification; in the
code the question route emits for every non-remove action, so a repeat
upvote leaves the ledger unchanged yet appends a notification. -/
theorem claim5_counterexample :
    (questionVoteRoute 1 VoteType.up noopUpWorld false).world.target =
      noopUpWorld.target ∧
    (questionVoteRoute 1 VoteType.up noopUpWorld false).outcome =
      RouteOutcome.success 1 ∧
    (questionVoteRoute 1 VoteType.up noopUpWorld false).world.notifs =
      [createQuestionVoted 0 1 VoteType.up] ∧
    ¬ (questionVoteRoute 1 VoteType.up noopUpWorld false).world.notifs =
      noopUpWorld.notifs := by
  decide

/-- Claim C5 as amended: when the notification save does not fail, a
vote operation by a non-author emits exactly one notification to the
target's author iff the action is not `remove`, regardless of whether
the ledger actually changed; `remove` never emits. -/
theorem claim5_amended (actor : UserId) (vt : VoteType) (now : Nat)
    (w : QuestionVoteWorld) (wa : AnswerVoteWorld)
    (hq : w.target.author ≠ actor) (ha : wa.target.author ≠ actor) :
    (questionVoteRoute actor vt w false).world.notifs =
      w.notifs ++ (if vt = VoteType.remove then []
        else [createQuestionVoted w.target.author actor vt]) ∧
    (answerVoteRoute actor vt now wa false).world.notifs =
      wa.notifs ++ (if vt = VoteType.remove then []
        else [createAnswerVoted wa.target.author actor vt]) := by
  constructor
  · by_cases hvt : vt = VoteType.remove <;>
      simp [questionVoteRoute, hq, hvt]
  · by_cases hvt : vt = VoteType.remove <;>
      simp [answerVoteRoute, ha, hvt]

theorem claim5_witness :
    (selfVoteQWorld.target.author ≠ 1 ∧ selfVoteAWorld.target.author ≠ 1) ∧
    ((questionVoteRoute 1 VoteType.up selfVoteQWorld false).world.notifs =
      selfVoteQWorld.notifs ++ (if VoteType.up = VoteType.remove then []
        else [createQuestionVoted selfVoteQWorld.target.author 1 VoteType.up]) ∧
    (answerVoteRoute 1 VoteType.up 3 selfVoteAWorld false).world.notifs =
      selfVoteAWorld.notifs ++ (if VoteType.up = VoteType.remove then []
        else [createAnswerVoted selfVoteAWorld.target.author 1 VoteType.up])) :=
  ⟨⟨by decide, by decide⟩,
    claim5_amended 1 VoteType.up 3 selfVoteQWorld selfVoteAWorld
      (by decide) (by decide)⟩

/-- `true` iff no reputation write occurs before the first target save
in the given trace. -/
def repWriteAfterSave (evs : List PersistEvent) : Bool :=
  (evs.takeWhile (fun e => !e.isSaveTarget)).all (fun e => !e.isRepWrite)

/-- Claim C6 says the ledger/score save is issued before the reputation
write; on a fresh upvote through the question route the trace is
`[repWrite, saveTarget, notifSave]`: the reputation write is issued
first. -/
theorem claim6_counterexample :
    (questionVoteRoute 1 VoteType.up selfVoteQWorld false).events =
      [PersistEvent.repWrite 0 5, PersistEvent.saveTarget,
        PersistEvent.notifSave] ∧
    repWriteAfterSave
      (questionVoteRoute 1 VoteType.up selfVoteQWorld false).events = false := by
  decide

theorem question_vote_events_shape (vt : VoteType) (u : UserId) (l : Ledger) :
    (applyQuestionVote vt u l).events = [PersistEvent.saveTarget] ∨
    ∃ d, (applyQuestionVote vt u l).events =
      [PersistEvent.repWrite l.author d, PersistEvent.saveTarget] := by
  cases vt with
  | up =>
    unfold applyQuestionVote Question.upvote
    dsimp only
    split
    · exact Or.inl rfl
    · exact Or.inr ⟨5, rfl⟩
  | down =>
    unfold applyQuestionVote Question.downvote
    dsimp only
    split
    · exact Or.inl rfl
    · exact Or.inr ⟨-2, rfl⟩
  | remove =>
    unfold applyQuestionVote Question.removeVote
    dsimp only
    split
    · exact Or.inr ⟨_, rfl⟩
    · exact Or.inl rfl

theorem answer_vote_events_shape (vt : VoteType) (u : UserId) (l : Ledger) :
    (applyAnswerVote vt u l).events = [PersistEvent.saveTarget] ∨
    ∃ d, (applyAnswerVote vt u l).events =
      [PersistEvent.repWrite l.author d, PersistEvent.saveTarget] := by
  cases vt with
  | up =>
    unfold applyAnswerVote Answer.upvote
    dsimp only
    split
    · exact Or.inl rfl
    · exact Or.inr ⟨10, rfl⟩
  | down =>
    unfold applyAnswerVote Answer.downvote
    dsimp only
    split
    · exact Or.inl rfl
    · exact Or.inr ⟨-2, rfl⟩
  | remove =>
    unfold applyAnswerVote Answer.removeVote
    dsimp only
    split
    · exact Or.inr ⟨_, rfl⟩
    · exact Or.inl rfl

/-- The trace has the shape reputation-writes, then the single target
save, then notification saves. -/
def orderedEvents (evs : List PersistEvent) : Prop :=
  ∃ pre post, evs = pre ++ PersistEvent.saveTarget :: post ∧
    (∀ e ∈ pre, e.isRepWrite = true) ∧
    (∀ e ∈ post, e = PersistEvent.notifSave)

theorem questionVoteRoute_events (actor : UserId) (vt : VoteType)
    (w : QuestionVoteWorld) (nf : Bool) (h : w.target.author ≠ actor) :
    (questionVoteRoute actor vt w nf).events =
      (applyQuestionVote vt actor w.target).events ++
        (if vt = VoteType.remove ∨ nf then [] else [PersistEvent.notifSave]) := by
  by_cases hvt : vt = VoteType.remove <;> by_cases hnf : nf <;>
    simp [questionVoteRoute, h, hvt, hnf]

theorem answerVoteRoute_events (actor : UserId) (vt : VoteType) (now : Nat)
    (w : AnswerVoteWorld) (nf : Bool) (h : w.target.author ≠ actor) :
    (answerVoteRoute actor vt now w nf).events =
      (applyAnswerVote vt actor w.target).events ++
        (if vt = VoteType.remove ∨ nf then [] else [PersistEvent.notifSave]) := by
  by_cases hvt : vt = VoteType.remove <;> by_cases hnf : nf <;>
    simp [answerVoteRoute, h, hvt, hnf]

theorem orderedEvents_of_shape (evs tail : List PersistEvent)
    (h : evs = [PersistEvent.saveTarget] ∨
      ∃ a d, evs = [PersistEvent.repWrite a d, PersistEvent.saveTarget])
    (htail : ∀ e ∈ tail, e = PersistEvent.notifSave) :
    orderedEvents (evs ++ tail) := by
  rcases h with h1 | ⟨a, d, h1⟩
  · refine ⟨[], tail, ?_, ?_, ?_⟩
    · rw [h1]
      rfl
    · intro e he
      cases he
    · exact htail
  · refine ⟨[PersistEvent.repWrite a d], tail, ?_, ?_, ?_⟩
    · rw [h1]
      rfl
    · intro e he
      simp at he
      subst he
      rfl
    · exact htail

/-- Claim C6 as amended: in every vote operation through either route
(by a non-author) the persistence calls are issued as zero or one
reputation write, then the target ledger/score save, then zero or one
notification save: the reputation write comes first, not after the
ledger save as the claim states. -/
theorem claim6_amended (actor : UserId) (vt : VoteType) (now : Nat)
    (w : QuestionVoteWorld) (wa : AnswerVoteWorld) (nf nfa : Bool)
    (hq : w.target.author ≠ actor) (ha : wa.target.author ≠ actor) :
    orderedEvents (questionVoteRoute actor vt w nf).events ∧
    orderedEvents (answerVoteRoute actor vt now wa nfa).events := by
  constructor
  · rw [questionVoteRoute_events actor vt w nf hq]
    refine orderedEvents_of_shape _ _ ?_ ?_
    · rcases question_vote_events_shape vt actor w.target with h1 | ⟨d, h1⟩
      · exact Or.inl h1
      · exact Or.inr ⟨w.target.author, d, h1⟩
    · intro e he
      split at he
      · cases he
      · simpa using he
  · rw [answerVoteRoute_events actor vt now wa nfa ha]
    refine orderedEvents_of_shape _ _ ?_ ?_
    · rcases answer_vote_events_shape vt actor wa.target with h1 | ⟨d, h1⟩
      · exact Or.inl h1
      · exact Or.inr ⟨wa.target.author, d, h1⟩
    · intro e he
      split at he
      · cases he
      · simpa using he

theorem claim6_witness :
    (selfVoteQWorld.target.author ≠ 1 ∧ selfVoteAWorld.target.author ≠ 1) ∧
    (orderedEvents (questionVoteRoute 1 VoteType.up selfVoteQWorld false).events ∧
      orderedEvents (answerVoteRoute 1 VoteType.up 3 selfVoteAWorld false).events) :=
  ⟨⟨by decide, by decide⟩,
    claim6_amended 1 VoteType.up 3 selfVoteQWorld selfVoteAWorld false false
      (by decide) (by decide)⟩

/-- Claim C7 says a notification-persistence failure after the primary
write is swallowed and the caller still sees success; in the code the
route's catch block answers 500: a fresh upvote whose notification save
throws ends as `serverError` even though the ledger, score and
reputation writes were already issued. -/
theorem claim7_counterexample :
    (questionVoteRoute 1 VoteType.up selfVoteQWorld true).outcome =
      RouteOutcome.serverError ∧
    (questionVoteRoute 1 VoteType.up selfVoteQWorld true).world.target.votes = 1 ∧
    (questionVoteRoute 1 VoteType.up selfVoteQWorld true).world.target.upvotes = [1] ∧
    (questionVoteRoute 1 VoteType.up selfVoteQWorld true).world.authorRep =
      selfVoteQWorld.authorRep + 5 := by
  decide

/-- Claim C7 as amended: when the notification save fails on a
non-remove vote by a non-author, both routes report a 500 server error
to the caller (the error is propagated, not swallowed), while the
ledger/score and reputation writes have already been applied and no
notification is stored. -/
theorem claim7_amended (actor : UserId) (vt : VoteType) (now : Nat)
    (w : QuestionVoteWorld) (wa : AnswerVoteWorld)
    (hq : w.target.author ≠ actor) (ha : wa.target.author ≠ actor)
    (hvt : vt ≠ VoteType.remove) :
    ((questionVoteRoute actor vt w true).outcome = RouteOutcome.serverError ∧
      (questionVoteRoute actor vt w true).world.target =
        (applyQuestionVote vt actor w.target).target ∧
      (questionVoteRoute actor vt w true).world.authorRep =
        w.authorRep + (applyQuestionVote vt actor w.target).repDelta ∧
      (questionVoteRoute actor vt w true).world.notifs = w.notifs) ∧
    ((answerVoteRoute actor vt now wa true).outcome = RouteOutcome.serverError ∧
      (answerVoteRoute actor vt now wa true).world.target =
        (applyAnswerVote vt actor wa.target).target ∧
      (answerVoteRoute actor vt now wa true).world.authorRep =
        wa.authorRep + (applyAnswerVote vt actor wa.target).repDelta ∧
      (answerVoteRoute actor vt now wa true).world.notifs = wa.notifs) := by
  constructor
  · simp [questionVoteRoute, hq, hvt]
  · simp [answerVoteRoute, ha, hvt]

theorem claim7_witness :
    (selfVoteQWorld.target.author ≠ 1 ∧ selfVoteAWorld.target.author ≠ 1 ∧
      VoteType.up ≠ VoteType.remove) ∧
    (((questionVoteRoute 1 VoteType.up selfVoteQWorld true).outcome =
        RouteOutcome.serverError ∧
      (questionVoteRoute 1 VoteType.up selfVoteQWorld true).world.target =
        (applyQuestionVote VoteType.up 1 selfVoteQWorld.target).target ∧
      (questionVoteRoute 1 VoteType.up selfVoteQWorld true).world.authorRep =
        selfVoteQWorld.authorRep +
          (applyQuestionVote VoteType.up 1 selfVoteQWorld.target).repDelta ∧
      (questionVoteRoute 1 VoteType.up selfVoteQWorld true).world.notifs =
        selfVoteQWorld.notifs) ∧
    ((answerVoteRoute 1 VoteType.up 3 selfVoteAWorld true).outcome =
        RouteOutcome.serverError ∧
      (answerVoteRoute 1 VoteType.up 3 selfVoteAWorld true).world.target =
        (applyAnswerVote VoteType.up 1 selfVoteAWorld.target).target ∧
      (answerVoteRoute 1 VoteType.up 3 selfVoteAWorld true).world.authorRep =
        selfVoteAWorld.authorRep +
          (applyAnswerVote VoteType.up 1 selfVoteAWorld.target).repDelta ∧
      (answerVoteRoute 1 VoteType.up 3 selfVoteAWorld true).world.notifs =
        selfVoteAWorld.notifs)) :=
  ⟨⟨by decide, by decide, by decide⟩,
    claim7_amended 1 VoteType.up 3 selfVoteQWorld selfVoteAWorld
      (by decide) (by decide) (by decide)⟩

/-- An answer document: id, author, parent question reference, and the
accepted flag (the fields the acceptance pipeline touches). -/
structure AnswerDoc where
  id : Nat
  author : UserId
  question : Nat
  isAccepted : Bool
deriving DecidableEq, Repr

/-- State visible to the acceptance pipelines: one question document,
the stored answer documents, account reputations, and notifications. -/
structure AcceptWorld where
  question : QuestionDoc
  answers : List AnswerDoc
  rep : UserId → Int
  notifs : List NotifRec

/-- The `updateMany` filter+update of `markAsAccepted` (Answer.js):
clear `isAccepted` on answers of the same question other than `self`. -/
def clearOtherAccepted (self : AnswerDoc) (a : AnswerDoc) : AnswerDoc :=
  if a.question = self.question ∧ a.id ≠ self.id then
    { a with isAccepted := false }
  else a

/-- Persisting the in-memory `self` document over its stored copy. -/
def saveAnswerDoc (self : AnswerDoc) (a : AnswerDoc) : AnswerDoc :=
  if a.id = self.id then self else a

/-- `Answer.findByIdAndUpdate(prev, { isAccepted: false })`. -/
def clearPrevAccepted (prev : Nat) (a : AnswerDoc) : AnswerDoc :=
  if a.id = prev then { a with isAccepted := false } else a

/-- `Answer.findByIdAndUpdate(answerId, { isAccepted: true })`. -/
def setAccepted (aid : Nat) (a : AnswerDoc) : AnswerDoc :=
  if a.id = aid then { a with isAccepted := true } else a

/-- `answerSchema.methods.markAsAccepted` (Answer.js): clear other
answers of the question via `updateMany`; set `this.isAccepted` and
save (firing the post-save hook on the parent question); update the
question's `hasAcceptedAnswer` / `acceptedAnswer` via
`findByIdAndUpdate`; `$inc` the author's reputation by 15. -/
def Answer.markAsAccepted (self : AnswerDoc) (now : Nat) (w : AcceptWorld) : AcceptWorld :=
  let answers1 := w.answers.map (clearOtherAccepted self)
  let self1 : AnswerDoc := { self with isAccepted := true }
  let answers2 := answers1.map (saveAnswerDoc self1)
  let q1 := answerSaveHook self.question now w.question
  let q2 := if q1.id = self.question then
      { q1 with hasAcceptedAnswer := true, acceptedAnswer := some self.id }
    else q1
  { question := q2, answers := answers2,
    rep := fun u => if u = self.author then w.rep u + 15 else w.rep u,
    notifs := w.notifs }

/-- `questionSchema.methods.acceptAnswer` (Question.js): clear the
previously referenced accepted answer (if any), set
`acceptedAnswer` / `hasAcceptedAnswer` on the question, mark the new
answer accepted via `findByIdAndUpdate` (no hook), save the question
(whose pre-save hook refreshes `lastActivity`).  No reputation write is
issued. -/
def Question.acceptAnswer (self : QuestionDoc) (answerId : Nat) (now : Nat)
    (w : AcceptWorld) : AcceptWorld :=
  let answers1 := match self.acceptedAnswer with
    | some prev => w.answers.map (clearPrevAccepted prev)
    | none => w.answers
  let answers2 := answers1.map (setAccepted answerId)
  let self1 := { self with
    hasAcceptedAnswer := true,
    acceptedAnswer := some answerId,
    lastActivity := now }
  { question := self1, answers := answers2, rep := w.rep, notifs := w.notifs }

/-- HTTP outcome of an acceptance route invocation. -/
inductive AcceptOutcome where
  | ok
  | err (code : Nat)
deriving DecidableEq, Repr

structure AcceptResult where
  outcome : AcceptOutcome
  world : AcceptWorld

/-- `POST /answers/:id/accept` (routes/answers.js): 404 on missing
answer or question, 403 unless the requester is the question author,
then `markAsAccepted` and one `answer_accepted` notification. -/
def answerAcceptRoute (requester : UserId) (answerId : Nat) (now : Nat)
    (w : AcceptWorld) : AcceptResult :=
  match w.answers.find? (fun a => a.id = answerId) with
  | none => { outcome := AcceptOutcome.err 404, world := w }
  | some answer =>
    if w.question.id = answer.question then
      if w.question.author = requester then
        let w1 := Answer.markAsAccepted answer now w
        { outcome := AcceptOutcome.ok,
          world := { w1 with notifs :=
            w1.notifs ++ [createAnswerAccepted answer.author requester] } }
      else { outcome := AcceptOutcome.err 403, world := w }
    else { outcome := AcceptOutcome.err 404, world := w }

/-- `POST /questions/:id/accept-answer` (routes/questions.js): 404 on
missing question or answer, 403 unless the requester is the question
author, 400 if the answer belongs to another question, then
`question.acceptAnswer` and one `answer_accepted` notification. -/
def questionAcceptRoute (requester : UserId) (questionId answerId : Nat)
    (now : Nat) (w : AcceptWorld) : AcceptResult :=
  if w.question.id = questionId then
    if w.question.author = requester then
      match w.answers.find? (fun a => a.id = answerId) with
      | none => { outcome := AcceptOutcome.err 404, world := w }
      | some answer =>
        if answer.question = questionId then
          let w1 := Question.acceptAnswer w.question answerId now w
          { outcome := AcceptOutcome.ok,
            world := { w1 with notifs :=
              w1.notifs ++ [createAnswerAccepted answer.author requester] } }
        else { outcome := AcceptOutcome.err 400, world := w }
    else { outcome := AcceptOutcome.err 403, world := w }
  else { outcome := AcceptOutcome.err 404, world := w }

/-- A question by account 1 with one unaccepted answer by account 2. -/
def acceptSampleWorld : AcceptWorld :=
  { question := { id := 10, author := 1,
                  hasAcceptedAnswer := false,
                  acceptedAnswer := none,
                  answerCount := 1,
                  lastActivity := 0 },
    answers := [{ id := 20, author := 2, question := 10, isAccepted := false }],
    rep := fun _ => 0,
    notifs := [] }

/-- Claim C8 says every successful acceptance, via either route, awards
+15 to the answer's author; the question-scoped accept-answer route
succeeds yet leaves the author's reputation unchanged, because
`Question.acceptAnswer` issues no reputation write. -/
theorem claim8_counterexample :
    (questionAcceptRoute 1 10 20 5 acceptSampleWorld).outcome =
      AcceptOutcome.ok ∧
    (questionAcceptRoute 1 10 20 5 acceptSampleWorld).world.rep 2 = 0 ∧
    ¬ (questionAcceptRoute 1 10 20 5 acceptSampleWorld).world.rep 2 =
      acceptSampleWorld.rep 2 + 15 := by
  refine ⟨rfl, rfl, ?_⟩
  intro h
  simp [questionAcceptRoute, acceptSampleWorld, Question.acceptAnswer] at h

/-- Claim C8 as amended: a successful acceptance through the
answer-scoped accept route awards the answer's author exactly +15 each
time (including re-accepting an already accepted answer), while a
successful acceptance through the question-scoped accept-answer route
awards no reputation at all. -/
theorem claim8_amended (w : AcceptWorld) (requester : UserId)
    (aid now : Nat) (a : AnswerDoc)
    (hfind : w.answers.find? (fun x => x.id = aid) = some a)
    (hqm : w.question.id = a.question)
    (hauth : w.question.author = requester) :
    ((answerAcceptRoute requester aid now w).outcome = AcceptOutcome.ok ∧
      (answerAcceptRoute requester aid now w).world.rep a.author =
        w.rep a.author + 15) ∧
    ((questionAcceptRoute requester w.question.id aid now w).outcome =
        AcceptOutcome.ok ∧
      ∀ u, (questionAcceptRoute requester w.question.id aid now w).world.rep u =
        w.rep u) := by
  refine ⟨⟨?_, ?_⟩, ?_, ?_⟩
  · simp [answerAcceptRoute, hfind, hqm, hauth]
  · simp [answerAcceptRoute, hfind, hqm, hauth, Answer.markAsAccepted]
  · simp [questionAcceptRoute, hfind, hqm, hauth]
  · intro u
    simp [questionAcceptRoute, hfind, hqm, hauth, Question.acceptAnswer]

theorem claim8_witness :
    (acceptSampleWorld.answers.find? (fun x => x.id = 20) =
        some { id := 20, author := 2, question := 10, isAccepted := false } ∧
      acceptSampleWorld.question.id =
        ({ id := 20, author := 2, question := 10, isAccepted := false } : AnswerDoc).question ∧
      acceptSampleWorld.question.author = 1) ∧
    (((answerAcceptRoute 1 20 5 acceptSampleWorld).outcome = AcceptOutcome.ok ∧
      (answerAcceptRoute 1 20 5 acceptSampleWorld).world.rep
          ({ id := 20, author := 2, question := 10, isAccepted := false } : AnswerDoc).author =
        acceptSampleWorld.rep
          ({ id := 20, author := 2, question := 10, isAccepted := false } : AnswerDoc).author + 15) ∧
    ((questionAcceptRoute 1 acceptSampleWorld.question.id 20 5 acceptSampleWorld).outcome =
        AcceptOutcome.ok ∧
      ∀ u, (questionAcceptRoute 1 acceptSampleWorld.question.id 20 5 acceptSampleWorld).world.rep u =
        acceptSampleWorld.rep u)) :=
  ⟨⟨by decide, by decide, by decide⟩,
    claim8_amended acceptSampleWorld 1 20 5
      { id := 20, author := 2, question := 10, isAccepted := false }
      (by decide) (by decide) (by decide)⟩

theorem clearOtherAccepted_id (s a : AnswerDoc) :
    (clearOtherAccepted s a).id = a.id := by
  unfold clearOtherAccepted
  split <;> rfl

theorem clearOtherAccepted_question (s a : AnswerDoc) :
    (clearOtherAccepted s a).question = a.question := by
  unfold clearOtherAccepted
  split <;> rfl

theorem clearPrevAccepted_id (p : Nat) (a : AnswerDoc) :
    (clearPrevAccepted p a).id = a.id := by
  unfold clearPrevAccepted
  split <;> rfl

theorem clearPrevAccepted_question (p : Nat) (a : AnswerDoc) :
    (clearPrevAccepted p a).question = a.question := by
  unfold clearPrevAccepted
  split <;> rfl

theorem setAccepted_id (i : Nat) (a : AnswerDoc) :
    (setAccepted i a).id = a.id := by
  unfold setAccepted
  split <;> rfl

theorem setAccepted_question (i : Nat) (a : AnswerDoc) :
    (setAccepted i a).question = a.question := by
  unfold setAccepted
  split <;> rfl

/-- The acceptance data-model invariant on reachable states: the
question's `acceptedAnswer` pointer designates exactly the accepted
answers of the question — every answer of the question is accepted
iff it is the referenced one, and with a null pointer none is
accepted. -/
def acceptInv (w : AcceptWorld) : Prop :=
  match w.question.acceptedAnswer with
  | some p => ∀ b ∈ w.answers, b.question = w.question.id →
      (b.isAccepted = true ↔ b.id = p)
  | none => ∀ b ∈ w.answers, b.question = w.question.id →
      b.isAccepted = false

/-- After acceptance of answer `i`: the pointer references `i`, an
accepted answer with id `i` is stored, and an answer of the question is
accepted iff its id is `i`. -/
def acceptedExactly (w : AcceptWorld) (i : Nat) : Prop :=
  w.question.acceptedAnswer = some i ∧
  (∃ b ∈ w.answers, b.id = i ∧ b.isAccepted = true) ∧
  (∀ b ∈ w.answers, b.question = w.question.id →
    (b.isAccepted = true ↔ b.id = i))

/-- At most one answer of the question carries the accepted flag (up to
id). -/
def atMostOneAccepted (w : AcceptWorld) : Prop :=
  ∀ b ∈ w.answers, ∀ c ∈ w.answers, b.question = w.question.id →
    c.question = w.question.id → b.isAccepted = true → c.isAccepted = true →
    b.id = c.id

theorem atMostOne_of_exactly {w : AcceptWorld} {i : Nat}
    (h : acceptedExactly w i) : atMostOneAccepted w := by
  intro b hb c hc hbq hcq hba hca
  rw [(h.2.2 b hb hbq).mp hba, (h.2.2 c hc hcq).mp hca]

theorem markAsAccepted_question_id (a : AnswerDoc) (now : Nat)
    (w : AcceptWorld) :
    (Answer.markAsAccepted a now w).question.id = w.question.id := by
  by_cases h1 : w.question.id = a.question <;>
    simp [Answer.markAsAccepted, answerSaveHook, h1]

theorem markAsAccepted_acceptedAnswer {w : AcceptWorld} {a : AnswerDoc}
    (now : Nat) (hqm : w.question.id = a.question) :
    (Answer.markAsAccepted a now w).question.acceptedAnswer = some a.id := by
  simp [Answer.markAsAccepted, answerSaveHook, hqm]

theorem markAsAccepted_answers (a : AnswerDoc) (now : Nat) (w : AcceptWorld) :
    (Answer.markAsAccepted a now w).answers =
      (w.answers.map (clearOtherAccepted a)).map
        (saveAnswerDoc { a with isAccepted := true }) := rfl

theorem markAsAccepted_post (w : AcceptWorld) (a : AnswerDoc) (now : Nat)
    (hmem : a ∈ w.answers) (hqm : w.question.id = a.question) :
    acceptedExactly (Answer.markAsAccepted a now w) a.id := by
  refine ⟨markAsAccepted_acceptedAnswer now hqm, ?_, ?_⟩
  · refine ⟨{ a with isAccepted := true }, ?_, rfl, rfl⟩
    rw [markAsAccepted_answers]
    have h1 : clearOtherAccepted a a = a := by
      simp [clearOtherAccepted]
    have h2 : saveAnswerDoc { a with isAccepted := true } a =
        { a with isAccepted := true } := by
      simp [saveAnswerDoc]
    have hmem2 : saveAnswerDoc { a with isAccepted := true }
        (clearOtherAccepted a a) ∈
        (w.answers.map (clearOtherAccepted a)).map
          (saveAnswerDoc { a with isAccepted := true }) :=
      List.mem_map_of_mem _ (List.mem_map_of_mem _ hmem)
    rw [h1, h2] at hmem2
    exact hmem2
  · intro b hb hbq
    rw [markAsAccepted_answers] at hb
    rcases List.mem_map.mp hb with ⟨d, hd, rfl⟩
    rcases List.mem_map.mp hd with ⟨c, hc, rfl⟩
    by_cases hcid : c.id = a.id
    · simp [clearOtherAccepted, saveAnswerDoc, hcid]
    · by_cases hcq : c.question = a.question
      · simp [clearOtherAccepted, saveAnswerDoc, hcid, hcq]
      · have hq2 : (saveAnswerDoc { a with isAccepted := true }
            (clearOtherAccepted a c)).question = c.question := by
          simp [clearOtherAccepted, saveAnswerDoc, hcid, hcq]
        rw [hq2, markAsAccepted_question_id, hqm] at hbq
        exact absurd hbq hcq

theorem acceptAnswer_question (self : QuestionDoc) (aid now : Nat)
    (w : AcceptWorld) :
    (Question.acceptAnswer self aid now w).question =
      { self with
        hasAcceptedAnswer := true,
        acceptedAnswer := some aid,
        lastActivity := now } := rfl

theorem acceptAnswer_answers (self : QuestionDoc) (aid now : Nat)
    (w : AcceptWorld) :
    (Question.acceptAnswer self aid now w).answers =
      (match self.acceptedAnswer with
        | some prev => w.answers.map (clearPrevAccepted prev)
        | none => w.answers).map (setAccepted aid) := rfl

theorem acceptAnswer_post (w : AcceptWorld) (aid now : Nat) (a : AnswerDoc)
    (hmem : a ∈ w.answers) (haid : a.id = aid)
    (hinv : acceptInv w) :
    acceptedExactly (Question.acceptAnswer w.question aid now w) a.id := by
  unfold acceptInv at hinv
  refine ⟨?_, ?_, ?_⟩
  · rw [acceptAnswer_question, haid]
  · refine ⟨setAccepted aid (match w.question.acceptedAnswer with
      | some prev => clearPrevAccepted prev a
      | none => a), ?_, ?_, ?_⟩
    · rw [acceptAnswer_answers]
      rcases hprev : w.question.acceptedAnswer with _ | prev
      · simpa using List.mem_map_of_mem _ hmem
      · simpa using List.mem_map_of_mem _ (List.mem_map_of_mem _ hmem)
    · rcases hprev : w.question.acceptedAnswer with _ | prev
      · rw [setAccepted_id]
      · rw [setAccepted_id, clearPrevAccepted_id]
    · rcases hprev : w.question.acceptedAnswer with _ | prev
      · simp [setAccepted, haid]
      · simp [setAccepted, clearPrevAccepted_id, haid]
  · intro b hb hbq
    rw [acceptAnswer_answers] at hb
    rw [acceptAnswer_question] at hbq
    rcases hprev : w.question.acceptedAnswer with _ | prev <;> rw [hprev] at hb hinv
    · rcases List.mem_map.mp hb with ⟨c, hc, rfl⟩
      by_cases hcid : c.id = aid
      · simp [setAccepted, hcid, haid]
      · have hbqc : c.question = w.question.id := by
          rw [setAccepted_question] at hbq
          exact hbq
        have hacc := hinv c hc hbqc
        simp [setAccepted, hcid, hacc, haid]
    · rcases List.mem_map.mp hb with ⟨d, hd, rfl⟩
      rcases List.mem_map.mp hd with ⟨c, hc, rfl⟩
      by_cases hcid : c.id = aid
      · simp [setAccepted, clearPrevAccepted_id, hcid, haid]
      · have hbqc : c.question = w.question.id := by
          rw [setAccepted_question, clearPrevAccepted_question] at hbq
          exact hbq
        have hacc := hinv c hc hbqc
        by_cases hcp : c.id = prev
        · have hpa : ¬ prev = aid := by
            rw [← hcp]
            exact hcid
          simp [setAccepted, clearPrevAccepted, hcid, hcp, haid, hpa]
        · have hcacc : c.isAccepted = false := by
            rcases Bool.eq_false_or_eq_true c.isAccepted with ht | hf
            · exact absurd (hacc.mp ht) hcp
            · exact hf
          simp [setAccepted, clearPrevAccepted, hcid, hcp, haid, hcacc]

def sampleAnswer : AnswerDoc :=
  { id := 20, author := 2, question := 10, isAccepted := false }

/-- Claim C9: after a successful acceptance through either route, the
accepted answer is stored accepted, an answer of the question is
accepted iff it is the newly accepted one (so the previous accepted
answer's flag is cleared and at most one answer of the question is
accepted), and the question's acceptedAnswer reference equals its id. -/
theorem claim9_single_accepted_answer (w : AcceptWorld) (requester : UserId)
    (aid now : Nat) (a : AnswerDoc)
    (hfind : w.answers.find? (fun x => x.id = aid) = some a)
    (hqm : w.question.id = a.question)
    (hauth : w.question.author = requester)
    (hinv : acceptInv w) :
    (acceptedExactly (answerAcceptRoute requester aid now w).world a.id ∧
      atMostOneAccepted (answerAcceptRoute requester aid now w).world) ∧
    (acceptedExactly
        (questionAcceptRoute requester w.question.id aid now w).world a.id ∧
      atMostOneAccepted
        (questionAcceptRoute requester w.question.id aid now w).world) := by
  have hmem := List.mem_of_find?_eq_some hfind
  have haid : a.id = aid := by simpa using List.find?_some hfind
  constructor
  · have hw : (answerAcceptRoute requester aid now w).world =
        { Answer.markAsAccepted a now w with notifs :=
          (Answer.markAsAccepted a now w).notifs ++
            [createAnswerAccepted a.author requester] } := by
      simp [answerAcceptRoute, hfind, hqm, hauth]
    have hpost := markAsAccepted_post w a now hmem hqm
    refine ⟨?_, ?_⟩
    · rw [hw]
      exact hpost
    · rw [hw]
      exact atMostOne_of_exactly hpost
  · have hw2 : (questionAcceptRoute requester w.question.id aid now w).world =
        { Question.acceptAnswer w.question aid now w with notifs :=
          (Question.acceptAnswer w.question aid now w).notifs ++
            [createAnswerAccepted a.author requester] } := by
      simp [questionAcceptRoute, hfind, hqm, hauth]
    have hpost2 := acceptAnswer_post w aid now a hmem haid hinv
    refine ⟨?_, ?_⟩
    · rw [hw2]
      exact hpost2
    · rw [hw2]
      exact atMostOne_of_exactly hpost2

theorem claim9_witness :
    (acceptSampleWorld.answers.find? (fun x => x.id = 20) =
        some sampleAnswer ∧
      acceptSampleWorld.question.id = sampleAnswer.question ∧
      acceptSampleWorld.question.author = 1 ∧
      acceptInv acceptSampleWorld) ∧
    ((acceptedExactly (answerAcceptRoute 1 20 5 acceptSampleWorld).world
        sampleAnswer.id ∧
      atMostOneAccepted (answerAcceptRoute 1 20 5 acceptSampleWorld).world) ∧
    (acceptedExactly
        (questionAcceptRoute 1 acceptSampleWorld.question.id 20 5
          acceptSampleWorld).world sampleAnswer.id ∧
      atMostOneAccepted
        (questionAcceptRoute 1 acceptSampleWorld.question.id 20 5
          acceptSampleWorld).world)) :=
  ⟨⟨by decide, by decide, by decide, by simp [acceptInv, acceptSampleWorld]⟩,
    claim9_single_accepted_answer acceptSampleWorld 1 20 5 sampleAnswer
      (by decide) (by decide) (by decide)
      (by simp [acceptInv, acceptSampleWorld])⟩

/-- Claim C10: each answer vote method issues exactly one save of the
answer document, and that save fires the post-save hook, so a vote on
an answer through the route increments the parent question's
answerCount by 1 and refreshes its lastActivity; `markAsAccepted` saves
the answer as well, so acceptance through the answer route does too. -/
theorem claim10_answer_save_increments_parent (actor : UserId)
    (vt : VoteType) (now : Nat) (w : AnswerVoteWorld) (nf : Bool)
    (a : AnswerDoc) (wacc : AcceptWorld)
    (hna : w.target.author ≠ actor)
    (hpq : w.parentQ.id = w.questionRef)
    (hqm2 : wacc.question.id = a.question) :
    (((applyAnswerVote vt actor w.target).events.filter
        PersistEvent.isSaveTarget).length = 1 ∧
      (answerVoteRoute actor vt now w nf).world.parentQ.answerCount =
        w.parentQ.answerCount + 1 ∧
      (answerVoteRoute actor vt now w nf).world.parentQ.lastActivity = now) ∧
    ((Answer.markAsAccepted a now wacc).question.answerCount =
        wacc.question.answerCount + 1 ∧
      (Answer.markAsAccepted a now wacc).question.lastActivity = now) := by
  refine ⟨⟨?_, ?_, ?_⟩, ?_, ?_⟩
  · rcases answer_vote_events_shape vt actor w.target with h | ⟨d, h⟩ <;>
      rw [h] <;> rfl
  · by_cases hvt : vt = VoteType.remove <;> by_cases hnf2 : nf <;>
      simp [answerVoteRoute, hna, hvt, hnf2, answerSaveHook, hpq]
  · by_cases hvt : vt = VoteType.remove <;> by_cases hnf2 : nf <;>
      simp [answerVoteRoute, hna, hvt, hnf2, answerSaveHook, hpq]
  · simp [Answer.markAsAccepted, answerSaveHook, hqm2]
  · simp [Answer.markAsAccepted, answerSaveHook, hqm2]

theorem claim10_witness :
    (selfVoteAWorld.target.author ≠ 1 ∧
      selfVoteAWorld.parentQ.id = selfVoteAWorld.questionRef ∧
      acceptSampleWorld.question.id = sampleAnswer.question) ∧
    ((((applyAnswerVote VoteType.up 1 selfVoteAWorld.target).events.filter
        PersistEvent.isSaveTarget).length = 1 ∧
      (answerVoteRoute 1 VoteType.up 4 selfVoteAWorld false).world.parentQ.answerCount =
        selfVoteAWorld.parentQ.answerCount + 1 ∧
      (answerVoteRoute 1 VoteType.up 4 selfVoteAWorld false).world.parentQ.lastActivity = 4) ∧
    ((Answer.markAsAccepted sampleAnswer 4 acceptSampleWorld).question.answerCount =
        acceptSampleWorld.question.answerCount + 1 ∧
      (Answer.markAsAccepted sampleAnswer 4 acceptSampleWorld).question.lastActivity = 4)) :=
  ⟨⟨by decide, by decide, by decide⟩,
    claim10_answer_save_increments_parent 1 VoteType.up 4 selfVoteAWorld false
      sampleAnswer acceptSampleWorld (by decide) (by decide) (by decide)⟩

end HackSquad
